import Mathlib

/-!
Shallow embedding of the trading-system backfill core
(`trading_system/services/backfill_service.py`, the price and symbol
repositories, the heartbeat scheduler and the heartbeat price fetcher),
together with theorems settling the frozen claims about it.

Conventions used throughout:
* Python integers are `Int`; Python `//` is `Int.fdiv` (floor division) and
  Python `%` is `Int.emod` (both agree with Python for positive divisors).
* Python `float` price fields are modelled as `Rat`; the embedded code only
  moves them around, never computes with them.
* `async` functions are pure state-passing functions: the database tables are
  explicit values, and exchange I/O is an explicit oracle argument.
-/

namespace TradingSystem

/-- The configuration fields of `Settings` (config.py) the backfill core
reads.  Pydantic field validation guarantees `backfill_minutes ≥ 1`,
`gap_fill_threshold_minutes ≥ 0` and `max_gap_fill_minutes ≥ 1`. -/
structure Settings where
  backfill_minutes : Int
  gap_fill_threshold_minutes : Int
  max_gap_fill_minutes : Int
deriving DecidableEq, Repr

/-- The plan dictionary returned by `BackfillService._calculate_fetch_window`.
The `no_action` plan carries a `reason` key; the other plans do not. -/
structure FetchWindow where
  since_ms : Int
  until_ms : Int
  limit : Int
  strategy : String
  reason : Option String := none
deriving DecidableEq, Repr

/-- `until_ms = ((now_ms // 60000) * 60000) - 60000`: the boundary of the last
fully closed minute (backfill_service.py line 148). -/
def closed_minute (now_ms : Int) : Int :=
  (now_ms.fdiv 60000) * 60000 - 60000

/-- `BackfillService._calculate_fetch_window` (backfill_service.py lines
132-226), with the two repository reads hoisted into the arguments `latest`
and `oldest` (the timestamps of `get_latest`/`get_oldest`, `none` for a
missing row).  The reads are pure queries, so hoisting them preserves the
behaviour; the source only issues the `get_oldest` query inside the two
branches that use `oldest`. -/
def calculate_fetch_window (s : Settings) (now_ms : Int)
    (backfill_minutes : Int) (latest oldest : Option Int) : FetchWindow :=
  let until_ms : Int := closed_minute now_ms
  let required_ms : Int := backfill_minutes * 60 * 1000
  match latest with
  | none =>
    -- No existing data - standard backfill
    { since_ms := until_ms - required_ms, until_ms := until_ms,
      limit := backfill_minutes, strategy := "full_backfill" }
  | some latest_ts =>
    let gap_ms : Int := until_ms - latest_ts
    let threshold_ms : Int := s.gap_fill_threshold_minutes * 60 * 1000
    -- Handle clock skew (negative gap)
    let gap_ms : Int := if gap_ms < 0 then 0 else gap_ms
    if gap_ms ≤ threshold_ms then
      -- Continuous data - check if need to extend backward
      let existing_ms : Int :=
        match oldest with
        | some oldest_ts => until_ms - oldest_ts
        | none => 0
      if existing_ms ≥ required_ms then
        { since_ms := 0, until_ms := 0, limit := 0,
          strategy := "no_action", reason := some "sufficient_history" }
      else
        { since_ms := until_ms - required_ms, until_ms := until_ms,
          limit := backfill_minutes, strategy := "extend_backward" }
    else
      -- Gap detected
      let existing_ms : Int :=
        match oldest with
        | some oldest_ts => latest_ts - oldest_ts
        | none => 0
      let sinceStrat : Int × String :=
        if gap_ms + existing_ms < required_ms then
          (until_ms - required_ms, "gap_plus_extend")
        else
          (latest_ts + 60000, "gap_only")
      -- Apply max gap limit
      let max_gap_ms : Int := s.max_gap_fill_minutes * 60 * 1000
      let fetch_window_ms : Int := until_ms - sinceStrat.1
      let sinceStrat2 : Int × String :=
        if fetch_window_ms > max_gap_ms then
          (until_ms - max_gap_ms, sinceStrat.2 ++ "_limited")
        else
          sinceStrat
      { since_ms := sinceStrat2.1, until_ms := until_ms,
        limit := (until_ms - sinceStrat2.1).fdiv 60000,
        strategy := sinceStrat2.2 }

/-- Normalized candle data (`OHLCVData`, clients/binance_client.py).  The
source field `open` is a Lean keyword and is rendered `open_price`. -/
structure OHLCVData where
  timestamp : Int
  open_price : Rat
  high : Rat
  low : Rat
  close : Rat
  volume : Rat
deriving DecidableEq, Repr

/-- One row of the `price_data` table, as written by the repository
(`PriceRepository`, repositories/price_repository.py). -/
structure PriceRecord where
  symbol_id : Int
  timestamp : Int
  open_price : Rat
  high : Rat
  low : Rat
  close : Rat
  volume : Rat
deriving DecidableEq, Repr

/-- The `price_data` table.  Its SQL writes use
`ON CONFLICT(symbol_id, timestamp) DO UPDATE`, so `(symbol_id, timestamp)` is
a unique key and a conflicting write overwrites the row in place. -/
abbrev PriceTable := List PriceRecord

/-- Whether the table already holds a row with the given key. -/
def hasKey (t : PriceTable) (symbol_id timestamp : Int) : Bool :=
  t.any fun q => q.symbol_id == symbol_id && q.timestamp == timestamp

/-- One `INSERT ... ON CONFLICT(symbol_id, timestamp) DO UPDATE` statement:
overwrite the row with the same key if present, append otherwise. -/
def upsertRow (t : PriceTable) (r : PriceRecord) : PriceTable :=
  if hasKey t r.symbol_id r.timestamp then
    t.map fun q =>
      if q.symbol_id == r.symbol_id && q.timestamp == r.timestamp then r else q
  else
    t ++ [r]

/-- `PriceRepository.save`: upsert of a single row. -/
def save (t : PriceTable) (symbol_id timestamp : Int)
    (open_price high low close volume : Rat) : PriceTable :=
  upsertRow t { symbol_id := symbol_id, timestamp := timestamp,
                open_price := open_price, high := high, low := low,
                close := close, volume := volume }

/-- `PriceRepository.save_many` (price_repository.py lines 113-159): batch
upsert via `executemany`, substituting its own `symbol_id` argument into every
value tuple, and returning `len(candles)` (not the number of affected rows). -/
def save_many (t : PriceTable) (symbol_id : Int) (candles : List PriceRecord) :
    PriceTable × Nat :=
  let values := candles.map fun candle => { candle with symbol_id := symbol_id }
  (values.foldl upsertRow t, candles.length)

/-- Rows of a symbol, in table order (`WHERE symbol_id = ?`). -/
def rowsFor (t : PriceTable) (symbol_id : Int) : List PriceRecord :=
  t.filter fun q => q.symbol_id == symbol_id

/-- `PriceRepository.get_latest`: the symbol's row with the maximal timestamp
(`ORDER BY timestamp DESC LIMIT 1`), `none` when the symbol has no rows. -/
def get_latest (t : PriceTable) (symbol_id : Int) : Option PriceRecord :=
  (rowsFor t symbol_id).foldl
    (fun acc q =>
      match acc with
      | none => some q
      | some p => if q.timestamp > p.timestamp then some q else some p)
    none

/-- Modelled from the spec: `PriceRepository.get_oldest` is called by
`BackfillService._calculate_fetch_window` and `get_backfill_status` but its
definition is not in the source tree; the spec describes the store's
"latest/oldest single-row query", so it is modelled as the mirror image of
`get_latest`: the symbol's row with the minimal timestamp. -/
def get_oldest (t : PriceTable) (symbol_id : Int) : Option PriceRecord :=
  (rowsFor t symbol_id).foldl
    (fun acc q =>
      match acc with
      | none => some q
      | some p => if q.timestamp < p.timestamp then some q else some p)
    none

/-- `PriceRepository.count`: `SELECT COUNT(*) ... WHERE symbol_id = ?`. -/
def count (t : PriceTable) (symbol_id : Int) : Nat :=
  (rowsFor t symbol_id).length

/-- `BackfillService._transform_candles` (backfill_service.py lines 252-283):
floor every candle timestamp to its minute boundary and shape the row dict. -/
def transform_candles (symbol_id : Int) (candles : List OHLCVData) :
    List PriceRecord :=
  candles.map fun candle =>
    -- Round timestamp to minute boundary
    let minute_ts := (candle.timestamp.fdiv 60000) * 60000
    { symbol_id := symbol_id, timestamp := minute_ts,
      open_price := candle.open_price, high := candle.high, low := candle.low,
      close := candle.close, volume := candle.volume }

/-- The result dictionary of `BackfillService.backfill_symbol`.  Keys absent
from a given return path are `none`. -/
structure BackfillResult where
  status : String
  strategy : Option String := none
  reason : Option String := none
  records_stored : Nat := 0
deriving DecidableEq, Repr

/-- `minutes or self._settings.backfill_minutes`: Python `or` falls back to
the setting when `minutes` is `None` or the falsy integer `0`. -/
def effective_minutes (s : Settings) (minutes : Option Int) : Int :=
  match minutes with
  | none => s.backfill_minutes
  | some m => if m = 0 then s.backfill_minutes else m

/-- `BackfillService.backfill_symbol` (backfill_service.py lines 52-130) for a
registered symbol, as a pure function of the price table.

* `fetch since limit` is the exchange oracle standing for
  `_fetch_with_retry` → `fetch_ohlcv(symbol, "1m", since, limit)`; the retry
  wrapper re-raises or returns the same value, so one logical call suffices.
  As in the source, the executor passes `limit + 1`.
* The returned `Nat` counts the exchange calls made.
* The registry lookup (raising for an unregistered symbol) happens before any
  of this and is not modelled; no claim quantifies over unregistered symbols.
-/
def backfill_symbol (s : Settings) (fetch : Int → Int → List OHLCVData)
    (now_ms : Int) (symbol_id : Int) (minutes : Option Int) (t : PriceTable) :
    PriceTable × BackfillResult × Nat :=
  let backfill_minutes := effective_minutes s minutes
  let window := calculate_fetch_window s now_ms backfill_minutes
    ((get_latest t symbol_id).map PriceRecord.timestamp)
    ((get_oldest t symbol_id).map PriceRecord.timestamp)
  if window.strategy = "no_action" then
    (t, { status := "no_action", reason := window.reason }, 0)
  else
    let candles := fetch window.since_ms (window.limit + 1)
    if candles.isEmpty then
      (t, { status := "no_data", strategy := some window.strategy }, 1)
    else
      let price_data := transform_candles symbol_id candles
      let t2 := if price_data.isEmpty then t
                else (save_many t symbol_id price_data).1
      (t2, { status := "success", strategy := some window.strategy,
             records_stored := price_data.length }, 1)

/-- `PriceFetcher._store_price` (heartbeat/price_fetcher.py lines 187-215):
floor the ticker timestamp to its minute boundary and save a single-point
candle with `O = H = L = C = price` and zero volume. -/
def store_price (t : PriceTable) (symbol_id : Int) (timestamp_ms : Int)
    (price : Rat) : PriceTable :=
  -- Round timestamp to minute boundary
  let minute_ts := (timestamp_ms.fdiv 60000) * 60000
  save t symbol_id minute_ts price price price price 0

/-- The `symbols` table row (`Symbol`, repositories/symbol_repository.py).
`created_at` comes from the schema default and `last_price_at` from
`CURRENT_TIMESTAMP` / `datetime.now()`; both are modelled as abstract integer
clock readings supplied by the caller. -/
structure Symbol where
  id : Int
  symbol : String
  created_at : Int
  is_active : Bool
  last_price : Option Rat := none
  last_price_at : Option Int := none
deriving DecidableEq, Repr

/-- The state owned by `SymbolRepository`: the `symbols` table plus the three
in-memory caches (`_cache` by id, `_symbol_cache` by name, and
`_active_list_cache`).  The Python caches are dicts; they are modelled as
association lists where a fresh entry is consed on and `lookup` sees the
newest binding, matching dict assignment. -/
structure SymbolRepoState where
  db : List Symbol
  cache : List (Int × Symbol)
  symbol_cache : List (String × Symbol)
  active_list_cache : Option (List Symbol) := none
deriving DecidableEq, Repr

/-- `SELECT * FROM symbols WHERE id = ?` (first matching row). -/
def db_find_by_id (db : List Symbol) (symbol_id : Int) : Option Symbol :=
  db.find? fun s => s.id == symbol_id

/-- `SELECT * FROM symbols WHERE symbol = ?` (first matching row). -/
def db_find_by_symbol (db : List Symbol) (name : String) : Option Symbol :=
  db.find? fun s => s.symbol == name

/-- `SymbolRepository._invalidate_cache` (symbol_repository.py lines 232-236):
clear all three caches. -/
def invalidate_cache (st : SymbolRepoState) : SymbolRepoState :=
  { st with cache := [], symbol_cache := [], active_list_cache := none }

/-- `SymbolRepository.get`: read through the by-id cache, populating both the
by-id and by-name caches on a database hit. -/
def SymbolRepoState.get (st : SymbolRepoState) (symbol_id : Int) :
    SymbolRepoState × Option Symbol :=
  match st.cache.lookup symbol_id with
  | some sym => (st, some sym)
  | none =>
    match db_find_by_id st.db symbol_id with
    | none => (st, none)
    | some sym =>
      ({ st with cache := (symbol_id, sym) :: st.cache,
                 symbol_cache := (sym.symbol, sym) :: st.symbol_cache },
       some sym)

/-- `SymbolRepository.get_by_symbol`: read through the by-name cache,
populating both caches on a database hit. -/
def get_by_symbol (st : SymbolRepoState) (name : String) :
    SymbolRepoState × Option Symbol :=
  match st.symbol_cache.lookup name with
  | some sym => (st, some sym)
  | none =>
    match db_find_by_symbol st.db name with
    | none => (st, none)
    | some sym =>
      ({ st with cache := (sym.id, sym) :: st.cache,
                 symbol_cache := (name, sym) :: st.symbol_cache },
       some sym)

/-- SQLite `lastrowid` for the append-only `symbols` table: one past the
largest existing id. -/
def next_rowid (db : List Symbol) : Int :=
  (db.foldl (fun m s => max m s.id) 0) + 1

/-- `SymbolRepository.register` (symbol_repository.py lines 65-103).
`now` stands for the schema's `CURRENT_TIMESTAMP` default on insert.
Raising `ValueError` for an already-active symbol is the `.error` branch. -/
def register (st : SymbolRepoState) (name : String) (now : Int) :
    Except String (SymbolRepoState × Option Symbol) :=
  let stEx := get_by_symbol st name
  match stEx.2 with
  | some existing =>
    if existing.is_active then
      .error "symbol is already registered and active"
    else
      -- Reactivate: UPDATE symbols SET is_active = 1 WHERE id = ?
      let db2 := stEx.1.db.map fun s =>
        if s.id == existing.id then { s with is_active := true } else s
      let st2 := invalidate_cache { stEx.1 with db := db2 }
      .ok (SymbolRepoState.get st2 existing.id)
  | none =>
    -- INSERT INTO symbols (symbol, is_active) VALUES (?, 1)
    let new_id := next_rowid stEx.1.db
    let row : Symbol :=
      { id := new_id, symbol := name, created_at := now, is_active := true }
    let st2 := { stEx.1 with db := stEx.1.db ++ [row] }
    -- Fetch and cache, then invalidate
    let stRes := SymbolRepoState.get st2 new_id
    .ok (invalidate_cache stRes.1, stRes.2)

/-- `SymbolRepository.deactivate` (symbol_repository.py lines 187-205):
soft-delete; `rowcount == 0` is the missing-id branch. -/
def deactivate (st : SymbolRepoState) (symbol_id : Int) :
    SymbolRepoState × Bool :=
  match db_find_by_id st.db symbol_id with
  | none => (st, false)
  | some _ =>
    let db2 := st.db.map fun s =>
      if s.id == symbol_id then { s with is_active := false } else s
    (invalidate_cache { st with db := db2 }, true)

/-- `SymbolRepository.update_last_price` (symbol_repository.py lines 207-230).
When the id is present in the by-id cache, the source mutates the cached
`Symbol` object in place; every cache holds a reference to that same object,
so the mutation is visible through all three caches — modelled by rewriting
the updated symbol wherever it occurs.  The caches are *not* cleared. -/
def update_last_price (st : SymbolRepoState) (symbol_id : Int) (price : Rat)
    (now : Int) : SymbolRepoState × Bool :=
  match db_find_by_id st.db symbol_id with
  | none => (st, false)
  | some _ =>
    let upd : Symbol → Symbol := fun s =>
      if s.id == symbol_id then
        { s with last_price := some price, last_price_at := some now }
      else s
    let db2 := st.db.map upd
    -- Update cache if present
    if (st.cache.lookup symbol_id).isSome then
      ({ st with db := db2,
                 cache := st.cache.map fun p => (p.1, upd p.2),
                 symbol_cache := st.symbol_cache.map fun p => (p.1, upd p.2),
                 active_list_cache :=
                   st.active_list_cache.map fun l => l.map upd },
       true)
    else
      ({ st with db := db2 }, true)

/-- Whether a beat's handler invocation returned or raised
(`await self._handler(...)` inside the `try` of the beat loop). -/
inductive BeatOutcome
  | ok
  | failed
deriving DecidableEq, Repr

/-- `HeartbeatStats` (heartbeat/scheduler.py lines 20-33); times are abstract
integer clock readings. -/
structure HeartbeatStats where
  beats_executed : Nat := 0
  beats_failed : Nat := 0
  start_time : Option Int := none
  last_beat_time : Option Int := none
deriving DecidableEq, Repr

/-- The scheduler state visible to the beat loop: the `_running` flag, the
beat counter and the statistics. -/
structure SchedState where
  running : Bool
  beat_number : Nat
  stats : HeartbeatStats
deriving DecidableEq, Repr

/-- One iteration body of `HeartbeatScheduler._beat_loop` (scheduler.py lines
190-206): increment the beat number, run the handler, and either count an
executed beat (recording its start time) or catch the exception and count a
failed beat.  `beat_time` is the `beat_start` clock reading. -/
def beat_once (st : SchedState) (outcome : BeatOutcome) (beat_time : Int) :
    SchedState :=
  let st1 := { st with beat_number := st.beat_number + 1 }
  match outcome with
  | .ok =>
    { st1 with stats := { st1.stats with
        beats_executed := st1.stats.beats_executed + 1,
        last_beat_time := some beat_time } }
  | .failed =>
    -- Continue running - don't let handler errors stop the heartbeat
    { st1 with stats := { st1.stats with
        beats_failed := st1.stats.beats_failed + 1 } }

/-- The `while self._running:` loop of `_beat_loop` (scheduler.py lines
190-220), driven by fuel.  `handler n` is the outcome of beat `n`,
`beatTime n` its start time, and `stopAfter n` tells whether the stop event
fired during the wait following beat `n` (the `break`). -/
def beat_loop (handler : Nat → BeatOutcome) (beatTime : Nat → Int)
    (stopAfter : Nat → Bool) : Nat → SchedState → SchedState
  | 0, st => st
  | fuel + 1, st =>
    if st.running then
      let st2 := beat_once st (handler (st.beat_number + 1))
        (beatTime (st.beat_number + 1))
      if stopAfter st2.beat_number then st2
      else beat_loop handler beatTime stopAfter fuel st2
    else st

/-- C1: with no stored points the planner performs a full backfill over the
`desired_minutes` minutes ending at the last closed minute. -/
theorem C1_full_backfill_plan (s : Settings) (now_ms desired : Int)
    (oldest : Option Int) (hd : 1 ≤ desired) :
    calculate_fetch_window s now_ms desired none oldest =
      { since_ms := closed_minute now_ms - desired * 60000,
        until_ms := closed_minute now_ms,
        limit := desired,
        strategy := "full_backfill" } := by
  simp only [calculate_fetch_window, FetchWindow.mk.injEq]
  refine ⟨by ring, trivial, trivial, trivial, trivial⟩

theorem C1_full_backfill_plan_witness :
    (1 ≤ (5 : Int)) ∧
      calculate_fetch_window ⟨5, 1, 1000⟩ 1700000123456 5 none none =
        { since_ms := closed_minute 1700000123456 - 5 * 60000,
          until_ms := closed_minute 1700000123456,
          limit := 5,
          strategy := "full_backfill" } :=
  ⟨by decide, C1_full_backfill_plan ⟨5, 1, 1000⟩ 1700000123456 5 none (by decide)⟩

/-- The only branch of the planner that yields strategy `no_action` is the
sufficient-history branch, so a `no_action` plan is exactly the literal the
source returns there. -/
theorem window_no_action_eq (s : Settings) (now_ms m : Int)
    (latest oldest : Option Int)
    (h : (calculate_fetch_window s now_ms m latest oldest).strategy
          = "no_action") :
    calculate_fetch_window s now_ms m latest oldest =
      { since_ms := 0, until_ms := 0, limit := 0,
        strategy := "no_action", reason := some "sufficient_history" } := by
  revert h
  unfold calculate_fetch_window
  cases latest with
  | none => intro h; simp at h
  | some lt =>
    simp only
    split
    all_goals try split
    all_goals try split
    all_goals try split
    all_goals intro h
    all_goals first | rfl | simp at h

/-- C2: a gap at most `threshold_ms` (equality included) takes the continuous
path — `no_action`/`sufficient_history` when the existing span already covers
the requirement (and then the executor stores nothing and makes no exchange
call), `extend_backward` over the full desired window otherwise — and a gap
strictly greater than `threshold_ms` never yields a continuous-path
strategy. -/
theorem C2_continuous_path (s : Settings) (now_ms desired lt ot : Int)
    (fetch : Int → Int → List OHLCVData) (symbol_id : Int)
    (minutes : Option Int) (t : PriceTable) :
    ((if closed_minute now_ms - lt < 0 then 0 else closed_minute now_ms - lt)
        ≤ s.gap_fill_threshold_minutes * 60 * 1000 →
      (closed_minute now_ms - ot ≥ desired * 60000 →
        calculate_fetch_window s now_ms desired (some lt) (some ot) =
          { since_ms := 0, until_ms := 0, limit := 0,
            strategy := "no_action", reason := some "sufficient_history" }) ∧
      (closed_minute now_ms - ot < desired * 60000 →
        calculate_fetch_window s now_ms desired (some lt) (some ot) =
          { since_ms := closed_minute now_ms - desired * 60000,
            until_ms := closed_minute now_ms,
            limit := desired, strategy := "extend_backward" }))
    ∧ ((if closed_minute now_ms - lt < 0 then 0 else closed_minute now_ms - lt)
          > s.gap_fill_threshold_minutes * 60 * 1000 →
        (calculate_fetch_window s now_ms desired (some lt) (some ot)).strategy
            ≠ "no_action" ∧
        (calculate_fetch_window s now_ms desired (some lt) (some ot)).strategy
            ≠ "extend_backward")
    ∧ ((calculate_fetch_window s now_ms (effective_minutes s minutes)
          ((get_latest t symbol_id).map PriceRecord.timestamp)
          ((get_oldest t symbol_id).map PriceRecord.timestamp)).strategy
            = "no_action" →
        backfill_symbol s fetch now_ms symbol_id minutes t =
          (t, { status := "no_action", reason := some "sufficient_history",
                records_stored := 0 }, 0)) := by
  refine ⟨fun h => ⟨fun h2 => ?_, fun h2 => ?_⟩, fun h => ?_, fun hw => ?_⟩
  · unfold calculate_fetch_window
    simp only
    rw [if_pos h, if_pos (by omega :
      closed_minute now_ms - ot ≥ desired * 60 * 1000)]
  · unfold calculate_fetch_window
    simp only
    rw [if_pos h, if_neg (by omega :
      ¬ closed_minute now_ms - ot ≥ desired * 60 * 1000)]
    simp only [FetchWindow.mk.injEq]
    refine ⟨by ring, trivial, trivial, trivial, trivial⟩
  · unfold calculate_fetch_window
    simp only
    rw [if_neg (by omega :
      ¬ (if closed_minute now_ms - lt < 0 then 0
         else closed_minute now_ms - lt)
          ≤ s.gap_fill_threshold_minutes * 60 * 1000)]
    refine ⟨?_, ?_⟩ <;> (split <;> split <;> split <;> intro hc <;> simp at hc)
  · have hwin := window_no_action_eq s now_ms (effective_minutes s minutes)
      ((get_latest t symbol_id).map PriceRecord.timestamp)
      ((get_oldest t symbol_id).map PriceRecord.timestamp) hw
    unfold backfill_symbol
    rw [if_pos hw, hwin]

theorem C2_continuous_path_witness :
    ((if closed_minute 6060000 - (5940000 : Int) < 0 then 0
      else closed_minute 6060000 - 5940000)
        ≤ (1 : Int) * 60 * 1000) ∧
    (closed_minute 6060000 - (5700000 : Int) ≥ (5 : Int) * 60000) ∧
    calculate_fetch_window ⟨5, 1, 1000⟩ 6060000 5
        (some 5940000) (some 5700000) =
      { since_ms := 0, until_ms := 0, limit := 0,
        strategy := "no_action", reason := some "sufficient_history" } :=
  ⟨by decide, by decide,
    ((C2_continuous_path ⟨5, 1, 1000⟩ 6060000 5 5940000 5700000
        (fun _ _ => []) 1 none []).1 (by decide)).1 (by decide)⟩

/-- Dividing `m * 60000` milliseconds back into minutes is exact. -/
theorem mul_60000_fdiv (m : Int) : (m * (60000 : Int)).fdiv 60000 = m :=
  Int.mul_fdiv_cancel m (by decide)

/-- C3 counterexample: at a gap of 2 minutes (threshold 1) with 2 existing
points and `desired_minutes = 20` but `max_gap_fill_minutes = 5`, the premises
of the claim hold (`gap > threshold`, `gap + existing < required`) yet the
planner returns `gap_plus_extend_limited` with a clamped `since_ms`, not
`gap_plus_extend` with `since_ms = until_ms - required_ms`. -/
theorem C3_gap_strategies_counterexample :
    ((if closed_minute 6060000 - (5880000 : Int) < 0 then 0
      else closed_minute 6060000 - 5880000) > (1 : Int) * 60 * 1000)
    ∧ ((if closed_minute 6060000 - (5880000 : Int) < 0 then 0
        else closed_minute 6060000 - 5880000)
          + ((5880000 : Int) - 5820000) < (20 : Int) * 60000)
    ∧ (calculate_fetch_window ⟨20, 1, 5⟩ 6060000 20 (some 5880000)
          (some 5820000)).strategy ≠ "gap_plus_extend"
    ∧ (calculate_fetch_window ⟨20, 1, 5⟩ 6060000 20 (some 5880000)
          (some 5820000)).since_ms ≠ closed_minute 6060000 - 20 * 60000 := by
  decide

/-- C3 (amended): for a gap strictly above the threshold the planner picks
`gap_plus_extend` with `since_ms = until_ms - required_ms` when
`gap_ms + existing_ms < required_ms`, and otherwise `gap_only` with
`since_ms = latest + 60000`, *provided* the resulting window does not exceed
`max_gap_fill_minutes * 60000` (otherwise the clamped `_limited` variants of
C4 apply); in every gap-path case the returned `limit` equals
`(until_ms - since_ms) / 60000` computed from the returned `since_ms`. -/
theorem C3_gap_strategies (s : Settings) (now_ms desired lt ot : Int)
    (hgap : (if closed_minute now_ms - lt < 0 then 0
             else closed_minute now_ms - lt)
        > s.gap_fill_threshold_minutes * 60 * 1000) :
    ((if closed_minute now_ms - lt < 0 then 0 else closed_minute now_ms - lt)
        + (lt - ot) < desired * 60000 →
      desired * 60000 ≤ s.max_gap_fill_minutes * 60000 →
      calculate_fetch_window s now_ms desired (some lt) (some ot) =
        { since_ms := closed_minute now_ms - desired * 60000,
          until_ms := closed_minute now_ms,
          limit := desired, strategy := "gap_plus_extend" })
    ∧ ((if closed_minute now_ms - lt < 0 then 0
        else closed_minute now_ms - lt) + (lt - ot) ≥ desired * 60000 →
      closed_minute now_ms - (lt + 60000) ≤ s.max_gap_fill_minutes * 60000 →
      calculate_fetch_window s now_ms desired (some lt) (some ot) =
        { since_ms := lt + 60000,
          until_ms := closed_minute now_ms,
          limit := (closed_minute now_ms - (lt + 60000)).fdiv 60000,
          strategy := "gap_only" })
    ∧ (calculate_fetch_window s now_ms desired (some lt) (some ot)).limit =
        ((calculate_fetch_window s now_ms desired (some lt) (some ot)).until_ms
          - (calculate_fetch_window s now_ms desired (some lt)
              (some ot)).since_ms).fdiv 60000 := by
  refine ⟨fun hsub hcap => ?_, fun hsub hcap => ?_, ?_⟩
  · unfold calculate_fetch_window
    simp only
    rw [if_neg (by omega :
      ¬ (if closed_minute now_ms - lt < 0 then 0
         else closed_minute now_ms - lt)
          ≤ s.gap_fill_threshold_minutes * 60 * 1000)]
    rw [if_pos (by omega :
      (if closed_minute now_ms - lt < 0 then 0
       else closed_minute now_ms - lt) + (lt - ot) < desired * 60 * 1000)]
    rw [if_neg (by simp only; omega :
      ¬ closed_minute now_ms -
          ((closed_minute now_ms - desired * 60 * 1000 : Int),
            ("gap_plus_extend" : String)).1
        > s.max_gap_fill_minutes * 60 * 1000)]
    simp only [FetchWindow.mk.injEq]
    refine ⟨by ring, trivial, ?_, trivial, trivial⟩
    have : closed_minute now_ms -
        (closed_minute now_ms - desired * 60 * 1000) = desired * 60000 := by
      ring
    rw [this, mul_60000_fdiv]
  · unfold calculate_fetch_window
    simp only
    rw [if_neg (by omega :
      ¬ (if closed_minute now_ms - lt < 0 then 0
         else closed_minute now_ms - lt)
          ≤ s.gap_fill_threshold_minutes * 60 * 1000)]
    rw [if_neg (by omega :
      ¬ ((if closed_minute now_ms - lt < 0 then 0
          else closed_minute now_ms - lt) + (lt - ot)
            < desired * 60 * 1000))]
    rw [if_neg (by simp only; omega :
      ¬ closed_minute now_ms - ((lt + 60000 : Int), ("gap_only" : String)).1
        > s.max_gap_fill_minutes * 60 * 1000)]
  · unfold calculate_fetch_window
    simp only
    rw [if_neg (by omega :
      ¬ (if closed_minute now_ms - lt < 0 then 0
         else closed_minute now_ms - lt)
          ≤ s.gap_fill_threshold_minutes * 60 * 1000)]

theorem C3_gap_strategies_witness :
    ((if closed_minute 6060000 - (5700000 : Int) < 0 then 0
      else closed_minute 6060000 - 5700000) > (1 : Int) * 60 * 1000)
    ∧ ((if closed_minute 6060000 - (5700000 : Int) < 0 then 0
        else closed_minute 6060000 - 5700000)
          + ((5700000 : Int) - 5640000) < (20 : Int) * 60000)
    ∧ ((20 : Int) * 60000 ≤ (25 : Int) * 60000)
    ∧ calculate_fetch_window ⟨20, 1, 25⟩ 6060000 20 (some 5700000)
        (some 5640000) =
      { since_ms := closed_minute 6060000 - 20 * 60000,
        until_ms := closed_minute 6060000,
        limit := 20, strategy := "gap_plus_extend" } :=
  ⟨by decide, by decide, by decide,
    (C3_gap_strategies ⟨20, 1, 25⟩ 6060000 20 5700000 5640000
        (by decide)).1 (by decide) (by decide)⟩

/-- C4: when the chosen gap-path window exceeds the `max_gap_fill_minutes`
cap, the planner clamps `since_ms` to `until_ms - max_gap_ms`, appends
`_limited` to the strategy name, and the returned window spans exactly
`max_gap_fill_minutes * 60000` ms with `limit = max_gap_fill_minutes`. -/
theorem C4_max_gap_clamp (s : Settings) (now_ms desired lt ot : Int)
    (hgap : (if closed_minute now_ms - lt < 0 then 0
             else closed_minute now_ms - lt)
        > s.gap_fill_threshold_minutes * 60 * 1000)
    (hbig : closed_minute now_ms -
        (if (if closed_minute now_ms - lt < 0 then 0
             else closed_minute now_ms - lt) + (lt - ot)
              < desired * 60 * 1000
         then closed_minute now_ms - desired * 60 * 1000
         else lt + 60000)
      > s.max_gap_fill_minutes * 60 * 1000) :
    (calculate_fetch_window s now_ms desired (some lt) (some ot)).since_ms =
        closed_minute now_ms - s.max_gap_fill_minutes * 60 * 1000
    ∧ (calculate_fetch_window s now_ms desired (some lt) (some ot)).until_ms
        - (calculate_fetch_window s now_ms desired (some lt)
            (some ot)).since_ms = s.max_gap_fill_minutes * 60000
    ∧ (calculate_fetch_window s now_ms desired (some lt) (some ot)).limit =
        s.max_gap_fill_minutes
    ∧ ((calculate_fetch_window s now_ms desired (some lt)
          (some ot)).strategy = "gap_plus_extend" ++ "_limited" ∨
       (calculate_fetch_window s now_ms desired (some lt)
          (some ot)).strategy = "gap_only" ++ "_limited") := by
  unfold calculate_fetch_window
  simp only
  rw [if_neg (by omega :
    ¬ (if closed_minute now_ms - lt < 0 then 0
       else closed_minute now_ms - lt)
        ≤ s.gap_fill_threshold_minutes * 60 * 1000)]
  by_cases hsub : (if closed_minute now_ms - lt < 0 then 0
      else closed_minute now_ms - lt) + (lt - ot) < desired * 60 * 1000
  · rw [if_pos hsub] at hbig ⊢
    rw [if_pos (by simp only; omega :
      closed_minute now_ms -
          ((closed_minute now_ms - desired * 60 * 1000 : Int),
            ("gap_plus_extend" : String)).1
        > s.max_gap_fill_minutes * 60 * 1000)]
    refine ⟨rfl, by ring, ?_, Or.inl rfl⟩
    have : closed_minute now_ms -
        (closed_minute now_ms - s.max_gap_fill_minutes * 60 * 1000) =
          s.max_gap_fill_minutes * 60000 := by ring
    simp only [this, mul_60000_fdiv]
  · rw [if_neg hsub] at hbig ⊢
    rw [if_pos (by simp only; omega :
      closed_minute now_ms - ((lt + 60000 : Int), ("gap_only" : String)).1
        > s.max_gap_fill_minutes * 60 * 1000)]
    refine ⟨rfl, by ring, ?_, Or.inr rfl⟩
    have : closed_minute now_ms -
        (closed_minute now_ms - s.max_gap_fill_minutes * 60 * 1000) =
          s.max_gap_fill_minutes * 60000 := by ring
    simp only [this, mul_60000_fdiv]

theorem C4_max_gap_clamp_witness :
    ((if closed_minute 6060000 - (0 : Int) < 0 then 0
      else closed_minute 6060000 - 0) > (1 : Int) * 60 * 1000)
    ∧ (closed_minute 6060000 -
        (if (if closed_minute 6060000 - (0 : Int) < 0 then 0
             else closed_minute 6060000 - 0) + ((0 : Int) - 0)
              < (100 : Int) * 60 * 1000
         then closed_minute 6060000 - 100 * 60 * 1000
         else 0 + 60000)
      > (10 : Int) * 60 * 1000)
    ∧ (calculate_fetch_window ⟨100, 1, 10⟩ 6060000 100 (some 0)
          (some 0)).until_ms
        - (calculate_fetch_window ⟨100, 1, 10⟩ 6060000 100 (some 0)
            (some 0)).since_ms = 10 * 60000
    ∧ ((calculate_fetch_window ⟨100, 1, 10⟩ 6060000 100 (some 0)
          (some 0)).strategy = "gap_plus_extend" ++ "_limited" ∨
       (calculate_fetch_window ⟨100, 1, 10⟩ 6060000 100 (some 0)
          (some 0)).strategy = "gap_only" ++ "_limited") := by
  refine ⟨by decide, by decide, ?_, ?_⟩
  · exact (C4_max_gap_clamp ⟨100, 1, 10⟩ 6060000 100 0 0
      (by decide) (by decide)).2.1
  · exact (C4_max_gap_clamp ⟨100, 1, 10⟩ 6060000 100 0 0
      (by decide) (by decide)).2.2.2

/-- C5: a future-dated latest row (negative raw gap) is clamped to zero and
evaluated down the continuous path — the planner totals out to either
`no_action` or `extend_backward`, never a gap-path strategy. -/
theorem C5_clock_skew (s : Settings) (now_ms desired lt ot : Int)
    (hfuture : closed_minute now_ms < lt)
    (hthr : 0 ≤ s.gap_fill_threshold_minutes) :
    calculate_fetch_window s now_ms desired (some lt) (some ot) =
      (if closed_minute now_ms - ot ≥ desired * 60 * 1000 then
        { since_ms := 0, until_ms := 0, limit := 0,
          strategy := "no_action", reason := some "sufficient_history" }
      else
        { since_ms := closed_minute now_ms - desired * 60 * 1000,
          until_ms := closed_minute now_ms,
          limit := desired, strategy := "extend_backward" })
    ∧ ((calculate_fetch_window s now_ms desired (some lt)
          (some ot)).strategy = "no_action" ∨
       (calculate_fetch_window s now_ms desired (some lt)
          (some ot)).strategy = "extend_backward") := by
  have hcont : calculate_fetch_window s now_ms desired (some lt) (some ot) =
      (if closed_minute now_ms - ot ≥ desired * 60 * 1000 then
        { since_ms := 0, until_ms := 0, limit := 0,
          strategy := "no_action", reason := some "sufficient_history" }
      else
        { since_ms := closed_minute now_ms - desired * 60 * 1000,
          until_ms := closed_minute now_ms,
          limit := desired, strategy := "extend_backward" }) := by
    unfold calculate_fetch_window
    simp only
    rw [if_pos (by omega :
      (if closed_minute now_ms - lt < 0 then 0
       else closed_minute now_ms - lt)
        ≤ s.gap_fill_threshold_minutes * 60 * 1000)]
  refine ⟨hcont, ?_⟩
  rw [hcont]
  split
  · exact Or.inl rfl
  · exact Or.inr rfl

theorem C5_clock_skew_witness :
    (closed_minute 6060000 < (6120000 : Int))
    ∧ ((0 : Int) ≤ 1)
    ∧ ((calculate_fetch_window ⟨5, 1, 1000⟩ 6060000 5 (some 6120000)
          (some 5700000)).strategy = "no_action" ∨
       (calculate_fetch_window ⟨5, 1, 1000⟩ 6060000 5 (some 6120000)
          (some 5700000)).strategy = "extend_backward") :=
  ⟨by decide, by decide,
    (C5_clock_skew ⟨5, 1, 1000⟩ 6060000 5 6120000 5700000
      (by decide) (by decide)).2⟩

/-- Every row produced by `_transform_candles` is minute-aligned. -/
theorem transform_candles_aligned (symbol_id : Int) (candles : List OHLCVData) :
    ∀ r ∈ transform_candles symbol_id candles, r.timestamp.emod 60000 = 0 := by
  intro r hr
  simp only [transform_candles, List.mem_map] at hr
  obtain ⟨c, _, rfl⟩ := hr
  exact Int.mul_emod_left _ _

/-- `upsertRow` preserves a pointwise row property when the written row has
it: the overwrite replaces a row by `r` and the append adds `r`. -/
theorem upsertRow_preserves (P : PriceRecord → Prop) (t : PriceTable)
    (r : PriceRecord) (ht : ∀ q ∈ t, P q) (hr : P r) :
    ∀ q ∈ upsertRow t r, P q := by
  intro q hq
  unfold upsertRow at hq
  split at hq
  · simp only [List.mem_map] at hq
    obtain ⟨q0, hq0, rfl⟩ := hq
    split
    · exact hr
    · exact ht q0 hq0
  · rcases List.mem_append.mp hq with h | h
    · exact ht q h
    · simp only [List.mem_singleton] at h
      exact h ▸ hr

/-- Folding `upsertRow` over a batch preserves a pointwise row property. -/
theorem foldl_upsertRow_preserves (P : PriceRecord → Prop)
    (rows : List PriceRecord) (t : PriceTable)
    (ht : ∀ q ∈ t, P q) (hrows : ∀ r ∈ rows, P r) :
    ∀ q ∈ rows.foldl upsertRow t, P q := by
  induction rows generalizing t with
  | nil => exact ht
  | cons r rest ih =>
    simp only [List.foldl_cons]
    exact ih (upsertRow t r)
      (upsertRow_preserves P t r ht (hrows r (List.mem_cons_self r rest)))
      (fun q hq => hrows q (List.mem_cons_of_mem r hq))

/-- C6: minute alignment is enforced at write time.  Every row produced by
`_transform_candles` has `timestamp % 60000 == 0`; storing such a batch with
`save_many` keeps every stored row aligned, and the heartbeat path
`_store_price` floor-divides the raw ticker timestamp before `save`, so it
also keeps every stored row aligned — whatever sub-minute remainder the raw
inputs carried. -/
theorem C6_timestamp_normalization (symbol_id : Int)
    (candles : List OHLCVData) (t : PriceTable) (timestamp_ms : Int)
    (price : Rat) (ht : ∀ r ∈ t, r.timestamp.emod 60000 = 0) :
    (∀ r ∈ transform_candles symbol_id candles, r.timestamp.emod 60000 = 0)
    ∧ (∀ r ∈ (save_many t symbol_id (transform_candles symbol_id candles)).1,
        r.timestamp.emod 60000 = 0)
    ∧ (∀ r ∈ store_price t symbol_id timestamp_ms price,
        r.timestamp.emod 60000 = 0) := by
  refine ⟨transform_candles_aligned symbol_id candles, ?_, ?_⟩
  · intro r hr
    unfold save_many at hr
    simp only at hr
    refine foldl_upsertRow_preserves (fun q => q.timestamp.emod 60000 = 0)
      _ t ht ?_ r hr
    intro q hq
    simp only [List.mem_map] at hq
    obtain ⟨q0, hq0, rfl⟩ := hq
    exact transform_candles_aligned symbol_id candles q0 hq0
  · intro r hr
    unfold store_price save at hr
    refine upsertRow_preserves (fun q => q.timestamp.emod 60000 = 0)
      t _ ht ?_ r hr
    exact Int.mul_emod_left _ _

theorem C6_timestamp_normalization_witness :
    (∀ r ∈ ([] : PriceTable), r.timestamp.emod 60000 = 0)
    ∧ ((∀ r ∈ transform_candles 1 [⟨123456, 1, 2, 3, 4, 5⟩],
          r.timestamp.emod 60000 = 0)
      ∧ (∀ r ∈ (save_many ([] : PriceTable) 1
            (transform_candles 1 [⟨123456, 1, 2, 3, 4, 5⟩])).1,
          r.timestamp.emod 60000 = 0)
      ∧ (∀ r ∈ store_price ([] : PriceTable) 1 987654 3,
          r.timestamp.emod 60000 = 0)) :=
  ⟨by decide,
    C6_timestamp_normalization 1 [⟨123456, 1, 2, 3, 4, 5⟩] [] 987654 3
      (by decide)⟩

/-- Filtering after an in-place rewrite that never changes the predicate's
verdict keeps the number of selected rows. -/
theorem length_filter_map_congr {α : Type} (l : List α) (f : α → α)
    (p : α → Bool) (h : ∀ x ∈ l, p (f x) = p x) :
    ((l.map f).filter p).length = (l.filter p).length := by
  induction l with
  | nil => rfl
  | cons x xs ih =>
    simp only [List.map_cons, List.filter_cons,
      h x (List.mem_cons_self x xs)]
    split
    · simp only [List.length_cons,
        ih fun y hy => h y (List.mem_cons_of_mem x hy)]
    · exact ih fun y hy => h y (List.mem_cons_of_mem x hy)

/-- Upserting a row whose key is already present leaves every per-symbol row
count unchanged: the conflict branch overwrites in place. -/
theorem upsertRow_count_of_hasKey (t : PriceTable) (r : PriceRecord)
    (sid : Int) (h : hasKey t r.symbol_id r.timestamp = true) :
    count (upsertRow t r) sid = count t sid := by
  unfold upsertRow
  rw [if_pos h]
  unfold count rowsFor
  refine length_filter_map_congr t _ _ ?_
  intro q _
  split
  · next hq =>
    have : q.symbol_id = r.symbol_id := by
      have := (Bool.and_eq_true _ _).mp hq
      exact beq_iff_eq.mp this.1
    rw [this]
  · rfl

/-- An upsert never removes a key that was already present. -/
theorem upsertRow_hasKey_mono (t : PriceTable) (r : PriceRecord)
    (k ts : Int) (h : hasKey t k ts = true) :
    hasKey (upsertRow t r) k ts = true := by
  unfold upsertRow
  split
  · unfold hasKey at h ⊢
    rw [List.any_eq_true] at h ⊢
    obtain ⟨q, hq, hkey⟩ := h
    refine ⟨_, List.mem_map_of_mem _ hq, ?_⟩
    split
    · next hmatch =>
      have h1 := (Bool.and_eq_true _ _).mp hkey
      have h2 := (Bool.and_eq_true _ _).mp hmatch
      have e1 : q.symbol_id = k := beq_iff_eq.mp h1.1
      have e2 : q.timestamp = ts := beq_iff_eq.mp h1.2
      have e3 : q.symbol_id = r.symbol_id := beq_iff_eq.mp h2.1
      have e4 : q.timestamp = r.timestamp := beq_iff_eq.mp h2.2
      rw [Bool.and_eq_true]
      exact ⟨beq_iff_eq.mpr (e3 ▸ e1), beq_iff_eq.mpr (e4 ▸ e2)⟩
    · exact hkey
  · unfold hasKey at h ⊢
    rw [List.any_eq_true] at h ⊢
    obtain ⟨q, hq, hkey⟩ := h
    exact ⟨q, List.mem_append_left _ hq, hkey⟩

/-- Folding upserts of rows whose keys are all present keeps every per-symbol
count unchanged. -/
theorem foldl_upsertRow_count_of_hasKey (rows : List PriceRecord)
    (t : PriceTable) (sid : Int)
    (h : ∀ r ∈ rows, hasKey t r.symbol_id r.timestamp = true) :
    count (rows.foldl upsertRow t) sid = count t sid := by
  induction rows generalizing t with
  | nil => rfl
  | cons r rest ih =>
    simp only [List.foldl_cons]
    rw [ih (upsertRow t r) ?_,
      upsertRow_count_of_hasKey t r sid (h r (List.mem_cons_self r rest))]
    intro q hq
    exact upsertRow_hasKey_mono t r q.symbol_id q.timestamp
      (h q (List.mem_cons_of_mem r hq))

/-- A backfill call that does not reach the `success` branch returns the
price table untouched. -/
theorem backfill_table_unchanged (s : Settings)
    (fetch : Int → Int → List OHLCVData) (now_ms symbol_id : Int)
    (minutes : Option Int) (t : PriceTable)
    (h : (backfill_symbol s fetch now_ms symbol_id minutes t).2.1.status
          = "no_action" ∨
        (backfill_symbol s fetch now_ms symbol_id minutes t).2.1.status
          = "no_data") :
    (backfill_symbol s fetch now_ms symbol_id minutes t).1 = t := by
  revert h
  unfold backfill_symbol
  simp only
  split
  · intro _; rfl
  · split
    · intro _; rfl
    · intro h; rcases h with h | h <;> simp at h

/-- C7 counterexample: with `backfill_minutes = 20`, threshold 1 and
`max_gap_fill_minutes = 5`, an exchange serving the full minute grid, and two
stored points 2-3 minutes old, the first call fills a clamped 5-minute
window (6 rows); the immediately repeated call — same clock, same exchange
data — then sees a continuous but short history, takes `extend_backward`,
returns `success` and grows the stored count from 6 to 21.  The second call
neither returns `no_action`/`no_data` nor stores only already-present
minutes, and the count changes. -/
theorem C7_idempotence_counterexample :
    count (backfill_symbol ⟨20, 1, 5⟩
      (fun since limit => (List.range limit.toNat).map
        fun i => ⟨since + 60000 * i, 1, 1, 1, 1, 0⟩)
      6060000 1 none
      (backfill_symbol ⟨20, 1, 5⟩
        (fun since limit => (List.range limit.toNat).map
          fun i => ⟨since + 60000 * i, 1, 1, 1, 1, 0⟩)
        6060000 1 none
        [⟨1, 5820000, 1, 1, 1, 1, 0⟩, ⟨1, 5880000, 1, 1, 1, 1, 0⟩]).1).1 1
      ≠
    count (backfill_symbol ⟨20, 1, 5⟩
      (fun since limit => (List.range limit.toNat).map
        fun i => ⟨since + 60000 * i, 1, 1, 1, 1, 0⟩)
      6060000 1 none
      [⟨1, 5820000, 1, 1, 1, 1, 0⟩, ⟨1, 5880000, 1, 1, 1, 1, 0⟩]).1 1
    ∧ (backfill_symbol ⟨20, 1, 5⟩
      (fun since limit => (List.range limit.toNat).map
        fun i => ⟨since + 60000 * i, 1, 1, 1, 1, 0⟩)
      6060000 1 none
      (backfill_symbol ⟨20, 1, 5⟩
        (fun since limit => (List.range limit.toNat).map
          fun i => ⟨since + 60000 * i, 1, 1, 1, 1, 0⟩)
        6060000 1 none
        [⟨1, 5820000, 1, 1, 1, 1, 0⟩, ⟨1, 5880000, 1, 1, 1, 1, 0⟩]).1).2.1.status
      = "success" := by
  constructor
  · decide
  · decide

/-- C7 (amended): the upsert keyed on `(symbol_id, timestamp)` never
duplicates rows — re-storing a batch whose minute keys are all already
present leaves every per-symbol count unchanged — and whenever the second of
two back-to-back backfill calls (same clock, same exchange data) returns
`no_action` or `no_data`, the stored count after it equals the count after
the first call.  (A second call may instead return `success` and legitimately
store additional, previously absent minutes, e.g. after a clamped first
window; the count can then grow, but never by re-adding an existing
minute.) -/
theorem C7_upsert_idempotence (s : Settings)
    (fetch : Int → Int → List OHLCVData) (now_ms symbol_id sid' : Int)
    (minutes : Option Int) (t : PriceTable) (rows : List PriceRecord) :
    ((backfill_symbol s fetch now_ms symbol_id minutes
        (backfill_symbol s fetch now_ms symbol_id minutes t).1).2.1.status
          = "no_action" ∨
      (backfill_symbol s fetch now_ms symbol_id minutes
        (backfill_symbol s fetch now_ms symbol_id minutes t).1).2.1.status
          = "no_data" →
      count (backfill_symbol s fetch now_ms symbol_id minutes
          (backfill_symbol s fetch now_ms symbol_id minutes t).1).1 symbol_id
        = count (backfill_symbol s fetch now_ms symbol_id minutes t).1
            symbol_id)
    ∧ ((∀ r ∈ rows, hasKey t symbol_id r.timestamp = true) →
        count (save_many t symbol_id rows).1 sid' = count t sid') := by
  constructor
  · intro h
    rw [backfill_table_unchanged s fetch now_ms symbol_id minutes
      (backfill_symbol s fetch now_ms symbol_id minutes t).1 h]
  · intro h
    unfold save_many
    simp only
    refine foldl_upsertRow_count_of_hasKey _ t sid' ?_
    intro r hr
    simp only [List.mem_map] at hr
    obtain ⟨r0, hr0, rfl⟩ := hr
    exact h r0 hr0

theorem C7_upsert_idempotence_witness :
    ((backfill_symbol ⟨5, 1, 1000⟩ (fun _ _ => []) 6060000 1 none
        (backfill_symbol ⟨5, 1, 1000⟩ (fun _ _ => []) 6060000 1 none
          [⟨1, 5940000, 1, 1, 1, 1, 0⟩]).1).2.1.status = "no_action" ∨
      (backfill_symbol ⟨5, 1, 1000⟩ (fun _ _ => []) 6060000 1 none
        (backfill_symbol ⟨5, 1, 1000⟩ (fun _ _ => []) 6060000 1 none
          [⟨1, 5940000, 1, 1, 1, 1, 0⟩]).1).2.1.status = "no_data")
    ∧ count (backfill_symbol ⟨5, 1, 1000⟩ (fun _ _ => []) 6060000 1 none
        (backfill_symbol ⟨5, 1, 1000⟩ (fun _ _ => []) 6060000 1 none
          [⟨1, 5940000, 1, 1, 1, 1, 0⟩]).1).1 1
      = count (backfill_symbol ⟨5, 1, 1000⟩ (fun _ _ => []) 6060000 1 none
          [⟨1, 5940000, 1, 1, 1, 1, 0⟩]).1 1
    ∧ (∀ r ∈ [(⟨1, 5940000, 2, 2, 2, 2, 2⟩ : PriceRecord)],
        hasKey [⟨1, 5940000, 1, 1, 1, 1, 0⟩] 1 r.timestamp = true)
    ∧ count (save_many [⟨1, 5940000, 1, 1, 1, 1, 0⟩] 1
          [(⟨1, 5940000, 2, 2, 2, 2, 2⟩ : PriceRecord)]).1 1
        = count [(⟨1, 5940000, 1, 1, 1, 1, 0⟩ : PriceRecord)] 1 :=
  ⟨by decide,
    (C7_upsert_idempotence ⟨5, 1, 1000⟩ (fun _ _ => []) 6060000 1 1 none
      [⟨1, 5940000, 1, 1, 1, 1, 0⟩] []).1 (by decide),
    by decide,
    (C7_upsert_idempotence ⟨5, 1, 1000⟩ (fun _ _ => []) 6060000 1 1 none
      [⟨1, 5940000, 1, 1, 1, 1, 0⟩]
      [⟨1, 5940000, 2, 2, 2, 2, 2⟩]).2 (by decide)⟩

/-- C10: a `success` result reports `records_stored` equal to the length of
the candle list the exchange returned (`save_many` returns `len(candles)`,
not the number of affected rows); two candles normalizing to the same minute
are both counted even though the upsert collapses them into one stored row,
so `records_stored` can exceed the number of distinct stored rows. -/
theorem C10_records_stored_semantics (s : Settings)
    (fetch : Int → Int → List OHLCVData) (now_ms symbol_id : Int)
    (minutes : Option Int) (t : PriceTable) :
    ((backfill_symbol s fetch now_ms symbol_id minutes t).2.1.status
        = "success" →
      (backfill_symbol s fetch now_ms symbol_id minutes t).2.1.records_stored
        = (fetch (calculate_fetch_window s now_ms (effective_minutes s minutes)
              ((get_latest t symbol_id).map PriceRecord.timestamp)
              ((get_oldest t symbol_id).map PriceRecord.timestamp)).since_ms
            ((calculate_fetch_window s now_ms (effective_minutes s minutes)
              ((get_latest t symbol_id).map PriceRecord.timestamp)
              ((get_oldest t symbol_id).map
                PriceRecord.timestamp)).limit + 1)).length)
    ∧ (backfill_symbol ⟨5, 1, 1000⟩
        (fun _ _ => [⟨60000, 1, 1, 1, 1, 0⟩, ⟨60030, 2, 2, 2, 2, 0⟩])
        6060000 1 none []).2.1.records_stored = 2
    ∧ count (backfill_symbol ⟨5, 1, 1000⟩
        (fun _ _ => [⟨60000, 1, 1, 1, 1, 0⟩, ⟨60030, 2, 2, 2, 2, 0⟩])
        6060000 1 none []).1 1 = 1 := by
  refine ⟨?_, by decide, by decide⟩
  unfold backfill_symbol
  simp only
  split
  · intro h; simp at h
  · split
    · intro h; simp at h
    · intro _
      simp [transform_candles]

theorem C10_records_stored_semantics_witness :
    (backfill_symbol ⟨5, 1, 1000⟩
        (fun _ _ => [⟨60000, 1, 1, 1, 1, 0⟩, ⟨60030, 2, 2, 2, 2, 0⟩])
        6060000 1 none []).2.1.status = "success"
    ∧ (backfill_symbol ⟨5, 1, 1000⟩
        (fun _ _ => [⟨60000, 1, 1, 1, 1, 0⟩, ⟨60030, 2, 2, 2, 2, 0⟩])
        6060000 1 none []).2.1.records_stored
      = ((fun (_ _ : Int) =>
            [(⟨60000, 1, 1, 1, 1, 0⟩ : OHLCVData), ⟨60030, 2, 2, 2, 2, 0⟩])
          (calculate_fetch_window ⟨5, 1, 1000⟩ 6060000
              (effective_minutes ⟨5, 1, 1000⟩ none)
              ((get_latest [] 1).map PriceRecord.timestamp)
              ((get_oldest [] 1).map PriceRecord.timestamp)).since_ms
          ((calculate_fetch_window ⟨5, 1, 1000⟩ 6060000
              (effective_minutes ⟨5, 1, 1000⟩ none)
              ((get_latest [] 1).map PriceRecord.timestamp)
              ((get_oldest [] 1).map
                PriceRecord.timestamp)).limit + 1)).length :=
  ⟨by decide,
    (C10_records_stored_semantics ⟨5, 1, 1000⟩
      (fun _ _ => [⟨60000, 1, 1, 1, 1, 0⟩, ⟨60030, 2, 2, 2, 2, 0⟩])
      6060000 1 none []).1 (by decide)⟩

/-- C8 counterexample: `update_last_price` is a mutating call, yet after it
runs against a state whose three caches all hold the symbol, none of the
caches has been invalidated (each still has an entry), contradicting the
claim that every mutating call invalidates all three caches. -/
theorem C8_cache_invalidation_counterexample :
    ¬ ((update_last_price
          ⟨[⟨1, "X", 0, true, none, none⟩],
            [(1, ⟨1, "X", 0, true, none, none⟩)],
            [("X", ⟨1, "X", 0, true, none, none⟩)],
            some [⟨1, "X", 0, true, none, none⟩]⟩ 1 2 7).1.cache = []
      ∧ (update_last_price
          ⟨[⟨1, "X", 0, true, none, none⟩],
            [(1, ⟨1, "X", 0, true, none, none⟩)],
            [("X", ⟨1, "X", 0, true, none, none⟩)],
            some [⟨1, "X", 0, true, none, none⟩]⟩ 1 2 7).1.symbol_cache = []
      ∧ (update_last_price
          ⟨[⟨1, "X", 0, true, none, none⟩],
            [(1, ⟨1, "X", 0, true, none, none⟩)],
            [("X", ⟨1, "X", 0, true, none, none⟩)],
            some [⟨1, "X", 0, true, none, none⟩]⟩ 1 2
            7).1.active_list_cache = none) := by
  decide

/-- C8 (amended): `register` and `deactivate` invalidate all three caches
(`register` then re-populates the by-id and by-name caches with the freshly
re-fetched post-mutation row on the reactivation path), while
`update_last_price` does not invalidate at all: it overwrites the cached
`Symbol` in place — the same object every cache aliases — so no read through
any cache returns the pre-mutation `last_price`. -/
theorem C8_cache_coherence (st : SymbolRepoState) (name : String)
    (symbol_id now : Int) (price : Rat) (ex : Symbol) :
    ((deactivate st symbol_id).2 = true →
      (deactivate st symbol_id).1.cache = []
      ∧ (deactivate st symbol_id).1.symbol_cache = []
      ∧ (deactivate st symbol_id).1.active_list_cache = none)
    ∧ (st.symbol_cache.lookup name = none →
       db_find_by_symbol st.db name = none →
       ∃ p, register st name now = .ok p
         ∧ p.1.cache = [] ∧ p.1.symbol_cache = []
         ∧ p.1.active_list_cache = none)
    ∧ (st.symbol_cache.lookup name = none →
       db_find_by_symbol st.db name = some ex →
       ex.is_active = false →
       db_find_by_id st.db ex.id = some ex →
       ∃ p, register st name now = .ok p
         ∧ p.1.cache = [(ex.id, { ex with is_active := true })]
         ∧ p.1.symbol_cache = [(ex.symbol, { ex with is_active := true })]
         ∧ p.1.active_list_cache = none
         ∧ p.2 = some { ex with is_active := true })
    ∧ ((st.cache.lookup symbol_id).isSome = true →
       (db_find_by_id st.db symbol_id).isSome = true →
       (∀ pr ∈ (update_last_price st symbol_id price now).1.cache,
          pr.2.id = symbol_id → pr.2.last_price = some price)
       ∧ (∀ pr ∈ (update_last_price st symbol_id price now).1.symbol_cache,
          pr.2.id = symbol_id → pr.2.last_price = some price)
       ∧ (∀ l, (update_last_price st symbol_id price
              now).1.active_list_cache = some l →
            ∀ sym ∈ l, sym.id = symbol_id →
              sym.last_price = some price)) := by
  refine ⟨?_, fun h1 h2 => ?_, fun h1 h2 h3 h4 => ?_, fun hc hdb => ?_⟩
  · unfold deactivate
    split
    · intro h; simp at h
    · intro _; exact ⟨rfl, rfl, rfl⟩
  · simp only [register, get_by_symbol, h1, h2]
    exact ⟨_, rfl, rfl, rfl, rfl⟩
  · have hfind : db_find_by_id (st.db.map fun (s : Symbol) =>
        if s.id == ex.id then { s with is_active := true } else s) ex.id
        = some { ex with is_active := true } := by
      unfold db_find_by_id at h4 ⊢
      rw [List.find?_map]
      have hcomp : ((fun (s : Symbol) => s.id == ex.id) ∘
          fun (s : Symbol) =>
            if s.id == ex.id then { s with is_active := true } else s)
          = fun (s : Symbol) => s.id == ex.id := by
        funext s
        by_cases hs : (s.id == ex.id) = true
        · simp [Function.comp, hs]
        · simp [Function.comp, hs]
      rw [hcomp, h4]
      simp
    simp only [register, get_by_symbol, h1, h2, h3, Bool.false_eq_true,
      if_false, invalidate_cache, SymbolRepoState.get, List.lookup_nil,
      hfind]
    exact ⟨_, rfl, rfl, rfl, rfl, rfl⟩
  · unfold update_last_price
    split
    · next hnone => rw [hnone] at hdb; simp at hdb
    · simp only [hc, if_true]
      refine ⟨?_, ?_, ?_⟩
      · intro pr hpr hid
        simp only [List.mem_map] at hpr
        obtain ⟨p0, _, rfl⟩ := hpr
        try dsimp only at hid ⊢
        by_cases hb : (p0.2.id == symbol_id) = true
        · rw [if_pos hb]
        · rw [if_neg hb] at hid
          exact absurd (beq_iff_eq.mpr hid) hb
      · intro pr hpr hid
        simp only [List.mem_map] at hpr
        obtain ⟨p0, _, rfl⟩ := hpr
        try dsimp only at hid ⊢
        by_cases hb : (p0.2.id == symbol_id) = true
        · rw [if_pos hb]
        · rw [if_neg hb] at hid
          exact absurd (beq_iff_eq.mpr hid) hb
      · intro l hl sym hsym hid
        simp only [Option.map_eq_some'] at hl
        obtain ⟨l0, _, rfl⟩ := hl
        simp only [List.mem_map] at hsym
        obtain ⟨s0, _, rfl⟩ := hsym
        try dsimp only at hid ⊢
        by_cases hb : (s0.id == symbol_id) = true
        · rw [if_pos hb]
        · rw [if_neg hb] at hid
          exact absurd (beq_iff_eq.mpr hid) hb

theorem C8_cache_coherence_witness :
    ((deactivate
        ⟨[⟨1, "X", 0, true, none, none⟩], [], [], none⟩ 1).2 = true)
    ∧ ((deactivate
        ⟨[⟨1, "X", 0, true, none, none⟩], [], [], none⟩ 1).1.cache = []
      ∧ (deactivate
          ⟨[⟨1, "X", 0, true, none, none⟩], [], [],
            none⟩ 1).1.symbol_cache = []
      ∧ (deactivate
          ⟨[⟨1, "X", 0, true, none, none⟩], [], [],
            none⟩ 1).1.active_list_cache = none)
    ∧ (∃ p, register
          ⟨[⟨1, "X", 0, false, none, none⟩], [], [], none⟩ "X" 9 = .ok p
        ∧ p.1.cache =
            [((1 : Int),
              ({ id := 1, symbol := "X", created_at := 0, is_active := true,
                 last_price := none, last_price_at := none } : Symbol))]
        ∧ p.1.symbol_cache =
            [("X",
              ({ id := 1, symbol := "X", created_at := 0, is_active := true,
                 last_price := none, last_price_at := none } : Symbol))]
        ∧ p.1.active_list_cache = none
        ∧ p.2 = some
            { id := 1, symbol := "X", created_at := 0, is_active := true,
              last_price := none, last_price_at := none }) :=
  ⟨by decide,
    (C8_cache_coherence
        ⟨[⟨1, "X", 0, true, none, none⟩], [], [], none⟩ "X" 1 9 2
        ⟨1, "X", 0, false, none, none⟩).1 (by decide),
    (C8_cache_coherence
        ⟨[⟨1, "X", 0, false, none, none⟩], [], [], none⟩ "X" 1 9 2
        ⟨1, "X", 0, false, none, none⟩).2.2.1
      (by decide) (by decide) (by decide) (by decide)⟩

/-- A beat leaves the `_running` flag untouched whatever the handler did. -/
theorem beat_once_running (st : SchedState) (o : BeatOutcome) (bt : Int) :
    (beat_once st o bt).running = st.running := by
  cases o <;> rfl

/-- A beat increments the beat counter whatever the handler did. -/
theorem beat_once_number (st : SchedState) (o : BeatOutcome) (bt : Int) :
    (beat_once st o bt).beat_number = st.beat_number + 1 := by
  cases o <;> rfl

/-- The beat loop never changes the `_running` flag: only `stop()` does. -/
theorem beat_loop_running (handler : Nat → BeatOutcome)
    (beatTime : Nat → Int) (stopAfter : Nat → Bool) (fuel : Nat)
    (st : SchedState) :
    (beat_loop handler beatTime stopAfter fuel st).running = st.running := by
  induction fuel generalizing st with
  | zero => rfl
  | succ n ih =>
    rw [beat_loop]
    simp only
    split
    · split
      · exact beat_once_running st _ _
      · rw [ih]
        exact beat_once_running st _ _
    · rfl

/-- How many beats the loop runs is independent of the handler outcomes:
failed beats schedule the next beat exactly as successful ones do. -/
theorem beat_loop_number_congr (h1 h2 : Nat → BeatOutcome)
    (beatTime : Nat → Int) (stopAfter : Nat → Bool) (fuel : Nat) :
    ∀ st1 st2 : SchedState, st1.beat_number = st2.beat_number →
      st1.running = st2.running →
      (beat_loop h1 beatTime stopAfter fuel st1).beat_number
        = (beat_loop h2 beatTime stopAfter fuel st2).beat_number := by
  induction fuel with
  | zero => intro st1 st2 hn _; exact hn
  | succ n ih =>
    intro st1 st2 hn hr
    rw [beat_loop, beat_loop]
    simp only
    rw [hr, hn]
    by_cases hrun : st2.running = true
    · rw [if_pos hrun, if_pos hrun]
      rw [beat_once_number, beat_once_number, hn]
      by_cases hstop : stopAfter (st2.beat_number + 1) = true
      · rw [if_pos hstop, if_pos hstop,
          beat_once_number, beat_once_number, hn]
      · rw [if_neg hstop, if_neg hstop]
        refine ih _ _ ?_ ?_
        · rw [beat_once_number, beat_once_number, hn]
        · rw [beat_once_running, beat_once_running, hr]
    · rw [if_neg hrun, if_neg hrun]
      exact hn

/-- C9: a handler exception inside a beat is caught — the beat increments
`beats_failed` by one, leaves `beats_executed` and the `Running` flag alone,
and still advances the beat counter — and across the whole loop neither the
`_running` flag nor the number of beats scheduled depends on handler
outcomes: failures never terminate the loop. -/
theorem C9_handler_exceptions (st : SchedState) (bt : Int)
    (handler handler2 : Nat → BeatOutcome) (beatTime : Nat → Int)
    (stopAfter : Nat → Bool) (fuel : Nat) :
    ((beat_once st .failed bt).stats.beats_failed
        = st.stats.beats_failed + 1
      ∧ (beat_once st .failed bt).stats.beats_executed
        = st.stats.beats_executed
      ∧ (beat_once st .failed bt).running = st.running
      ∧ (beat_once st .failed bt).beat_number = st.beat_number + 1)
    ∧ (beat_loop handler beatTime stopAfter fuel st).running = st.running
    ∧ (beat_loop handler beatTime stopAfter fuel st).beat_number
        = (beat_loop handler2 beatTime stopAfter fuel st).beat_number :=
  ⟨⟨rfl, rfl, rfl, rfl⟩,
    beat_loop_running handler beatTime stopAfter fuel st,
    beat_loop_number_congr handler handler2 beatTime stopAfter fuel
      st st rfl rfl⟩

end TradingSystem
